import Mathlib

/-!
Shallow embedding of the Brady AI orchestration engine
(`src/orchestrator.ts`, types from `src/types.ts`) and proofs about it.

Modelling conventions:
* Machine time (`Date.now()`, milliseconds) is an `Int`; every call site that
  reads the clock receives its reading explicitly (a `clock : Nat → Int` trace
  indexed by a tick counter that the execution threads through).
* JavaScript `Map`s keyed by provider name become total functions
  `String → _` with pointwise update (`Map.get(p) || default` becomes the
  function's value at `p`).
* Monetary amounts (`cost`, JS floating-point `number`) are modelled as `Rat`;
  the claims under study concern which costs are summed, not float rounding.
* Agents perform network I/O; they enter the model as an environment
  (`StepEnv`): whether a (provider, model) pair resolves to a registered agent
  (`getAgentForModel !== null`) and what `agent.execute(input, task.type)`
  does — return an `AgentResponse` or throw an exception with a message.
* `console.log`/`console.warn` lines and the human-readable `reason` strings
  of the rate limiter (which embed `toFixed` float formatting) are diagnostic
  only; no claim depends on them, and the `reason` text is not modelled.
  `wait` returns just the `allowed` boolean together with the updated state.
-/

namespace Brady

/-- Substring test: `charsLead pat l` is true when `pat` is an initial
segment of `l` (character lists). Used to model JS `String.includes`. -/
def charsLead : List Char → List Char → Bool
  | [], _ => true
  | _ :: _, [] => false
  | c :: cs, d :: ds => c == d && charsLead cs ds

/-- True when `pat` occurs contiguously somewhere inside `l`. -/
def charsContains (pat : List Char) : List Char → Bool
  | [] => charsLead pat []
  | c :: rest => charsLead pat (c :: rest) || charsContains pat rest

/-- JS `s.includes(pat)`: `pat` occurs as a contiguous substring of `s`. -/
def strContains (s pat : String) : Bool :=
  charsContains pat.toList s.toList

/-! Data model, from `src/types.ts` (zod schemas). The task `type` and
`priority` enums are modelled as strings: the orchestrator only ever threads
them through opaquely. -/

/-- A task, from `TaskSchema` in `src/types.ts`. -/
structure Task where
  id : String
  type : String
  description : String
  context : Option String := none
  priority : String := "medium"
  files : Option (List String) := none
  requirements : Option (List String) := none

/-- Per-response accounting metadata, from `AgentResponseSchema`. -/
structure AgentMetadata where
  tokensUsed : Int
  cost : Rat
  duration : Int
  model : String

/-- An agent's answer to one invocation, from `AgentResponseSchema`. -/
structure AgentResponse where
  success : Bool
  result : String
  metadata : AgentMetadata
  error : Option String := none

/-- One step of an orchestration plan, from `OrchestrationStepSchema`. -/
structure OrchestrationStep where
  stepId : String
  agent : String
  action : String
  input : String
  expectedOutput : String
  dependencies : Option (List String) := none

/-- An orchestration plan, from `OrchestrationPlanSchema`. -/
structure OrchestrationPlan where
  taskId : String
  steps : List OrchestrationStep
  estimatedCost : Rat
  estimatedTime : String
  reasoning : String

/-- The outcome of one task, `interface TaskResult` in `orchestrator.ts`. -/
structure TaskResult where
  results : List AgentResponse
  totalCost : Rat
  totalTime : Int
  summary : String

/-- A history entry, `interface TaskHistory` in `orchestrator.ts`; the
`Date` timestamp is a clock reading. -/
structure TaskHistoryEntry where
  task : Task
  result : TaskResult
  timestamp : Int

/-! RateLimiter, from `class RateLimiter` in `orchestrator.ts`. -/

/-- Per-provider limit, `interface RateLimitConfig`. -/
structure RateLimitConfig where
  requestsPerMinute : Int
  cooldownSeconds : Int

/-- The `rateLimits` table: provider name to optional limit entry. -/
abbrev RateLimits := String → Option RateLimitConfig

/-- The RateLimiter's two mutable maps: `providerRequestTimestamps`
(`Map.get(p) || []`) and `providerCooldownUntil`. -/
structure RLState where
  providerRequestTimestamps : String → List Int
  providerCooldownUntil : String → Option Int

/-- The state of a freshly constructed RateLimiter: both maps empty. -/
def RLState.init : RLState :=
  { providerRequestTimestamps := fun _ => [], providerCooldownUntil := fun _ => none }

/-- Pointwise map update, modelling `Map.set`. -/
def setMap {α : Type} (m : String → α) (k : String) (v : α) : String → α :=
  fun p => if p = k then v else m p

/-- `RateLimiter.enterCooldown(provider)`: when the provider has a limit
entry, stamp a cooldown of `cooldownSeconds` seconds from now; otherwise do
nothing. `now` is the `Date.now()` reading inside the method. -/
def RateLimiter.enterCooldown (rl : RateLimits) (st : RLState) (provider : String)
    (now : Int) : RLState :=
  match rl provider with
  | some limitConfig =>
      let until_ := now + limitConfig.cooldownSeconds * 1000
      { st with providerCooldownUntil := setMap st.providerCooldownUntil provider (some until_) }
  | none => st

/-- The JS truthiness guard `if (cooldownUntil && now < cooldownUntil)`: an
absent entry is `undefined` (falsy) and a `0` entry is falsy too. -/
def cooldownActive (st : RLState) (provider : String) (now : Int) : Bool :=
  match st.providerCooldownUntil provider with
  | some cooldownUntil => cooldownUntil != 0 && decide (now < cooldownUntil)
  | none => false

/-- `RateLimiter.wait(provider)`, returning the `allowed` flag and the
updated limiter state. Structure mirrors the source: cooldown guard first;
providers without a limit entry are allowed without any state change; else
prune the window to the last 60 s, refuse and enter a cooldown when the
pruned count reaches `requestsPerMinute`, otherwise record `now` (the
pruned list plus `now` is what `Map.set` persists). `enterCooldown`'s own
`Date.now()` call is the same millisecond reading `now`. -/
def RateLimiter.wait (rl : RateLimits) (st : RLState) (provider : String)
    (now : Int) : Bool × RLState :=
  if cooldownActive st provider now then
    (false, st)
  else
    match rl provider with
    | none => (true, st)
    | some limitConfig =>
        let timestamps := st.providerRequestTimestamps provider
        let oneMinuteAgo := now - 60000
        let recentTimestamps := timestamps.filter (fun ts => decide (oneMinuteAgo < ts))
        if limitConfig.requestsPerMinute ≤ (recentTimestamps.length : Int) then
          (false, RateLimiter.enterCooldown rl st provider now)
        else
          let stamped := setMap st.providerRequestTimestamps provider (recentTimestamps ++ [now])
          (true, { st with providerRequestTimestamps := stamped })

/-! Role configuration and the fallback candidate sequence, from
`interface RoleConfig` and `BradyAI.executeStep` in `orchestrator.ts`. -/

/-- One provider entry of a role's configuration: `{name, models, priority}`. -/
structure ProviderEntry where
  name : String
  models : List String
  priority : Int
deriving DecidableEq, Repr

/-- The `roles` table. A JS object is an ordered key/value list (key order
matters for `Object.keys`, used by the planning prompt); lookup is by key. -/
abbrev Roles := List (String × List ProviderEntry)

/-- One (model, provider-name) candidate of the fallback sequence. -/
structure Candidate where
  model : String
  provider : String
deriving DecidableEq, Repr

/-- Insert an entry into a list sorted by ascending `priority`, before the
first entry of greater-or-equal priority (stable insertion). -/
def insertByPriority (x : ProviderEntry) : List ProviderEntry → List ProviderEntry
  | [] => [x]
  | y :: ys =>
      if x.priority ≤ y.priority then x :: y :: ys else y :: insertByPriority x ys

/-- JS `providers.sort((a, b) => a.priority - b.priority)`: `Array.sort` is
stable (ES2019), so the result is the stable ascending-by-priority
permutation, here computed by stable insertion sort. -/
def sortByPriority : List ProviderEntry → List ProviderEntry
  | [] => []
  | x :: xs => insertByPriority x (sortByPriority xs)

/-- The models of one provider as candidates, in declaration order:
`provider.models.map((model) => ({ model, provider: provider.name }))`. -/
def providerCandidates (p : ProviderEntry) : List Candidate :=
  p.models.map (fun model => { model := model, provider := p.name })

/-- The `prioritizedModels` fallback candidate sequence of `executeStep`:
sort the role's providers by ascending priority, then flatten each
provider's declared models in order. -/
def prioritizedModels (providers : List ProviderEntry) : List Candidate :=
  (sortByPriority providers).flatMap providerCandidates

/-! The step executor, `BradyAI.executeStep`. -/

/-- Outcome of one `agent.execute(step.input, task.type)` call: either the
promise resolves to an `AgentResponse`, or it rejects, carrying an optional
`error.message`. -/
inductive ExecOutcome where
  | responded (r : AgentResponse)
  | threw (msg : Option String)

/-- The environment a step executes against: the agent registry
(`getAgentForModel` returns an instance or `null`) and each agent's
behaviour, plus the `Date.now()` trace indexed by attempt tick. -/
structure StepEnv where
  hasAgent : String → String → Bool
  exec : Candidate → String → String → ExecOutcome
  clock : Nat → Int

/-- What one iteration of the candidate loop observed. -/
inductive Attempt where
  | rlRefused
  | noAgent
  | threwErr (msg : Option String)
  | failedResponse (r : AgentResponse)
  | succeeded (r : AgentResponse)

/-- True exactly for `Attempt.succeeded`. -/
def Attempt.isSucceeded : Attempt → Bool
  | .succeeded _ => true
  | _ => false

/-- The guard `error.message && (error.message.includes("rate_limit_exceeded")
|| error.message.includes("429"))` of the catch block. -/
def throwTriggersCooldown (msg : Option String) : Bool :=
  match msg with
  | some m => strContains m "rate_limit_exceeded" || strContains m "429"
  | none => false

/-- One iteration of `executeStep`'s candidate loop: rate-limiter admission,
agent resolution, invocation, and the catch block's cooldown trip. Returns
what happened and the rate-limiter state afterwards. -/
def attemptCandidate (env : StepEnv) (rl : RateLimits) (input taskType : String)
    (c : Candidate) (now : Int) (st : RLState) : Attempt × RLState :=
  let w := RateLimiter.wait rl st c.provider now
  if !w.1 then (.rlRefused, w.2)
  else if !(env.hasAgent c.provider c.model) then (.noAgent, w.2)
  else
    match env.exec c input taskType with
    | .responded r => if r.success then (.succeeded r, w.2) else (.failedResponse r, w.2)
    | .threw msg =>
        if throwTriggersCooldown msg then
          (.threwErr msg, RateLimiter.enterCooldown rl w.2 c.provider now)
        else (.threwErr msg, w.2)

/-- The terminal error thrown when the whole fallback sequence fails. -/
def exhaustedMsg (role stepId : String) : String :=
  "[Orchestrator] All models for role " ++ role ++ " failed to execute step " ++ stepId

/-- The error thrown when a role has no configured providers. -/
def noModelsMsg (role : String) : String :=
  "No models configured for role: " ++ role

/-- The candidate loop of `executeStep`: first successful response wins and
is returned; otherwise fall through; the exhausted list throws. The tick
counter `k` indexes the clock trace; the rate-limiter state is threaded
through (and reported even on the error path — in the source the limiter is
shared mutable state that survives the throw). -/
def runCandidates (env : StepEnv) (rl : RateLimits) (input taskType role stepId : String)
    (k : Nat) (st : RLState) :
    List Candidate → Except String AgentResponse × Nat × RLState
  | [] => (.error (exhaustedMsg role stepId), k, st)
  | c :: rest =>
      match attemptCandidate env rl input taskType c (env.clock k) st with
      | (.succeeded r, st') => (.ok r, k + 1, st')
      | (_, st') => runCandidates env rl input taskType role stepId (k + 1) st' rest

/-- `BradyAI.executeStep(step, task)`: resolve the step's role, build the
prioritized candidate sequence, and run the fallback loop. -/
def executeStep (env : StepEnv) (roles : Roles) (rl : RateLimits)
    (step : OrchestrationStep) (task : Task) (k : Nat) (st : RLState) :
    Except String AgentResponse × Nat × RLState :=
  match roles.lookup step.agent with
  | none => (.error (noModelsMsg step.agent), k, st)
  | some providers =>
      if providers.isEmpty then (.error (noModelsMsg step.agent), k, st)
      else
        runCandidates env rl step.input task.type step.agent step.stepId k st
          (prioritizedModels providers)

/-! The plan executor, `BradyAI.executePlan`, and the summary step,
`BradyAI.generateSummary`. -/

/-- `results.reduce((sum, r) => sum + (r.metadata.cost || 0), 0)`. For the
modelled rationals `cost || 0` is the identity (`0 || 0 === 0`). -/
def sumCosts (results : List AgentResponse) : Rat :=
  results.foldl (fun sum r => sum + r.metadata.cost) 0

/-- The summary prompt of `generateSummary`: task description plus each
step's model and its result truncated to 200 characters
(`r.result.substring(0, 200)`). -/
def summaryPrompt (task : Task) (results : List AgentResponse) : String :=
  let lines := results.enum.map (fun p =>
    "Step " ++ toString (p.1 + 1) ++ " (" ++ p.2.metadata.model ++ "): "
      ++ p.2.result.take 200 ++ "...")
  "Summarize the results of this task:\n    \nTask: " ++ task.description
    ++ "\nResults: " ++ String.intercalate "\n" lines
    ++ "\n\nProvide a concise summary of what was accomplished."

/-- The role the summary step runs under:
`this.modelConfig.roles["summarizer"] ? "summarizer" : "director"`. -/
def summaryRoleName (roles : Roles) : String :=
  match roles.lookup "summarizer" with
  | some _ => "summarizer"
  | none => "director"

/-- `BradyAI.generateSummary(task, results)`: build the summary step and
execute it through `executeStep`. -/
def generateSummary (env : StepEnv) (roles : Roles) (rl : RateLimits) (task : Task)
    (results : List AgentResponse) (k : Nat) (st : RLState) :
    Except String AgentResponse × Nat × RLState :=
  let summaryStep : OrchestrationStep :=
    { stepId := "final-summary", agent := summaryRoleName roles,
      action := "Generate task summary", input := summaryPrompt task results,
      expectedOutput := "A concise summary of the task results." }
  executeStep env roles rl summaryStep task k st

/-- The step loop of `executePlan`: run each step strictly in array order,
accumulating the responses; the first step error aborts the loop and
propagates (the `catch`/`throw error` re-raise). -/
def executePlanSteps (env : StepEnv) (roles : Roles) (rl : RateLimits) (task : Task)
    (k : Nat) (st : RLState) :
    List OrchestrationStep → Except String (List AgentResponse) × Nat × RLState
  | [] => (.ok [], k, st)
  | step :: rest =>
      match executeStep env roles rl step task k st with
      | (.error e, k', st') => (.error e, k', st')
      | (.ok r, k', st') =>
          match executePlanSteps env roles rl task k' st' rest with
          | (.error e, k'', st'') => (.error e, k'', st'')
          | (.ok rs, k'', st'') => (.ok (r :: rs), k'', st'')

/-- `BradyAI.executePlan(plan, task)`: run every step in order, then compute
`totalTime` (wall clock up to the end of the steps — the source reads
`Date.now()` before generating the summary) and `totalCost` (sum over the
accumulated step responses), then run the summary step, build the
`TaskResult` — whose `results` list is exactly the per-step responses and
whose `summary` is the summary response's text — and append it to
`taskHistory`. Any error (step or summary) propagates and leaves the
history untouched. The history list rides along explicitly; the final `Nat`
is the clock tick counter. -/
def executePlan (env : StepEnv) (roles : Roles) (rl : RateLimits)
    (plan : OrchestrationPlan) (task : Task) (k : Nat) (st : RLState)
    (taskHistory : List TaskHistoryEntry) :
    Except String TaskResult × Nat × RLState × List TaskHistoryEntry :=
  let startTime := env.clock k
  match executePlanSteps env roles rl task k st plan.steps with
  | (.error e, k', st') => (.error e, k', st', taskHistory)
  | (.ok results, k', st') =>
      let totalTime := env.clock k' - startTime
      let totalCost := sumCosts results
      match generateSummary env roles rl task results k' st' with
      | (.error e, k'', st'') => (.error e, k'', st'', taskHistory)
      | (.ok summary, k'', st'') =>
          let taskResult : TaskResult :=
            { results := results, totalCost := totalCost, totalTime := totalTime,
              summary := summary.result }
          let entry : TaskHistoryEntry :=
            { task := task, result := taskResult, timestamp := env.clock k'' }
          (.ok taskResult, k'', st'', taskHistory ++ [entry])

/-! The plan parser, `BradyAI.parsePlan`. -/

/-- A JSON value, as produced by `JSON.parse`: the object case keeps its
key/value list in order. -/
inductive Js where
  | null
  | bool (b : Bool)
  | num (q : Rat)
  | str (s : String)
  | arr (elems : List Js)
  | obj (fields : List (String × Js))

/-- JS property access `v.steps` on a parsed value: a field of an object, or
`undefined` (`none`) for a missing field or a non-object. -/
def Js.getField : Js → String → Option Js
  | .obj fields, key => fields.lookup key
  | _, _ => none

/-- The check `planData.steps && Array.isArray(planData.steps)`: the field
must exist and be an array (an empty array passes — it is truthy in JS). -/
def stepsOf (planData : Js) : Option (List Js) :=
  match planData.getField "steps" with
  | some (.arr steps) => some steps
  | _ => none

/-- The JS string-processing primitives `parsePlan` leans on. Their
behaviour is fixed by the JavaScript runtime, not by this repository, so
they are parameters of the model:
* `codeBlockMatch t`: capture group 1 of the first match of the regex for a
  fenced code block holding a brace-delimited object (with optional `json`
  tag), or `none` when the regex does not match;
* `simpleMatch t`: the first match of a bare brace-delimited object
  (first `⦃` to last `⦄`), or `none`;
* `jsonParse s`: the value `JSON.parse(s)` returns, or `none` when it
  throws on malformed input.
Both regexes can only match non-empty strings (a match contains at least
the two braces); faithful instantiations return no empty strings. -/
structure ParsePrims where
  codeBlockMatch : String → Option String
  simpleMatch : String → Option String
  jsonParse : String → Option Js

/-- The `jsonString` extraction of `parsePlan`: the fenced code block match
wins, else the bare object match, else the empty string (the variable's
initial value, which the `if (!jsonString)` guard rejects). -/
def extractJsonString (prims : ParsePrims) (planText : String) : String :=
  match prims.codeBlockMatch planText with
  | some s => s
  | none =>
      match prims.simpleMatch planText with
      | some s => s
      | none => ""

/-- The result of `parsePlan`. It mirrors `OrchestrationPlan`, except that
the source casts the deserialized `steps` array to `OrchestrationStep[]`
without validating the array's elements, so here `steps` keeps the raw
parsed JSON values. -/
structure ParsedPlan where
  taskId : String
  steps : List Js
  estimatedCost : Rat
  estimatedTime : String
  reasoning : String

/-- The single fallback step of `parsePlan`'s catch branch, as the JS object
it is at runtime. -/
def fallbackStep (task : Task) : Js :=
  .obj [("stepId", .str "1"), ("agent", .str "coder"), ("action", .str "Complete task"),
        ("input", .str ("Task: " ++ task.description)),
        ("expectedOutput", .str "Task completion")]

/-- The deterministic fallback plan returned by `parsePlan`'s catch branch. -/
def fallbackPlan (task : Task) : ParsedPlan :=
  { taskId := task.id, steps := [fallbackStep task], estimatedCost := 1 / 100,
    estimatedTime := "30s", reasoning := "Fallback single-step plan (JSON parsing failed)" }

/-- `BradyAI.parsePlan(planText, task)`: extract a JSON string, parse it,
require a `steps` array; every failure path (`throw` inside the `try`)
lands in the catch branch, which returns the fallback plan. -/
def parsePlan (prims : ParsePrims) (planText : String) (task : Task) : ParsedPlan :=
  let jsonString := extractJsonString prims planText
  if jsonString = "" then fallbackPlan task
  else
    match prims.jsonParse jsonString with
    | none => fallbackPlan task
    | some planData =>
        match stepsOf planData with
        | none => fallbackPlan task
        | some steps =>
            { taskId := task.id, steps := steps, estimatedCost := 1 / 100,
              estimatedTime := "30s", reasoning := "Auto-generated parallel plan" }

/-- The Boolean mirror of `parsePlan`'s failure condition: no extractable
JSON string, unparseable JSON, or a missing/non-array `steps` field. -/
def planParseFails (prims : ParsePrims) (planText : String) : Bool :=
  let jsonString := extractJsonString prims planText
  jsonString == "" ||
    (match prims.jsonParse jsonString with
     | none => true
     | some planData => (stepsOf planData).isNone)

/-! Plan creation, `BradyAI.createPlan`, with the role-capability catalog
`BradyAI.getRoleCapabilities`. -/

/-- The static capability table of `getRoleCapabilities`. -/
def capabilitiesTable : List (String × String) :=
  [("director", "Project planning, task coordination, and high-level decision making. Excellent at breaking down complex tasks."),
   ("coder", "Writing, implementing, and generating code in various languages. Fast execution and practical solutions."),
   ("researcher", "Real-time internet search, finding current information, analyzing trends, and gathering up-to-date data using online sources."),
   ("optimizer", "Performance analysis, code optimization, debugging, and improving efficiency of existing solutions."),
   ("documenter", "Writing clear documentation, explanations, tutorials, and user-friendly content."),
   ("summarizer", "Condensing information, creating summaries, and extracting key insights from complex data."),
   ("reviewer", "Code review, quality assurance, identifying issues, and providing constructive feedback."),
   ("security-auditor", "Security vulnerability assessment, penetration testing analysis, secure coding practices, and threat modeling."),
   ("database-architect", "Database design, schema optimization, query performance tuning, and data modeling for Convex and other databases."),
   ("ui-designer", "User interface design, UX patterns, component architecture, and visual design using Shadcn UI and modern frameworks."),
   ("devops-engineer", "Infrastructure automation, CI/CD pipelines, containerization, cloud deployment, and system reliability."),
   ("api-architect", "RESTful API design, GraphQL schemas, API versioning, authentication patterns, and integration strategies."),
   ("test-engineer", "Test automation, unit testing, integration testing, E2E testing with Playwright, and test strategy development."),
   ("data-analyst", "Data analysis, metrics interpretation, user behavior analysis, and business intelligence insights."),
   ("mobile-developer", "Mobile app development, responsive design, React Native patterns, and cross-platform solutions."),
   ("content-strategist", "Content planning, copywriting, SEO optimization, content marketing strategies, and user engagement."),
   ("accessibility-expert", "WCAG compliance, screen reader testing, accessible design patterns, and inclusive user experience design.")]

/-- `BradyAI.getRoleCapabilities(role)`: the table entry (or a generic
line), then the role's configured models joined with ", " (or a
placeholder when the role is unknown or the join is the falsy ""). -/
def getRoleCapabilities (roles : Roles) (role : String) : String :=
  let capability :=
    match capabilitiesTable.lookup role with
    | some c => c
    | none => "Handles " ++ role ++ " tasks"
  let joined :=
    match roles.lookup role with
    | some providers => String.intercalate ", " (providers.flatMap (fun p => p.models))
    | none => ""
  let models := if joined = "" then "No models configured" else joined
  capability ++ " Models: " ++ models

/-- The `task.context || "None"` template fragment (an absent or empty
context string is falsy). -/
def contextOrNone (task : Task) : String :=
  match task.context with
  | some c => if c = "" then "None" else c
  | none => "None"

/-- The planning prompt `createPlan` synthesizes (template literal in the
source; `Object.keys(roles)` enumerates the configured role names in
declaration order). -/
def planPrompt (roles : Roles) (task : Task) : String :=
  let roleLines := String.intercalate "\n"
    (roles.map (fun rp => "- **" ++ rp.1 ++ "**: " ++ getRoleCapabilities roles rp.1))
  "CRITICAL: You MUST respond with ONLY valid JSON. No explanations, no markdown, no additional text.\n\nYou are an AI code orchestrator. Create a parallel execution plan for the following task.\n\n**Task:**\n- **Type:** "
    ++ task.type ++ "\n- **Description:** " ++ task.description ++ "\n- **Context:** "
    ++ contextOrNone task ++ "\n- **Priority:** " ++ task.priority
    ++ "\n\n**Available Roles:**\n" ++ roleLines
    ++ "\n\n**Role Assignment Guidelines:**\n- Use \"researcher\" for tasks requiring current information, web search, or real-time data\n- Use \"coder\" for writing, implementing, or creating code\n- Use \"optimizer\" for performance analysis, debugging, or improving existing code\n- Use \"documenter\" for writing documentation, explanations, or tutorials\n- Use \"reviewer\" for code review, quality assurance, or feedback\n- Use \"summarizer\" for condensing information or extracting key insights\n\n**Instructions:**\n1.  Break the task into logical, parallelizable steps.\n2.  Assign the MOST APPROPRIATE role for each step based on the guidelines above.\n3.  For research tasks, ALWAYS use the \"researcher\" role.\n4.  Define the input for each agent clearly.\n\n**RESPONSE FORMAT (JSON ONLY):**\n\x7b\"steps\": [\x7b\"stepId\": \"1\", \"agent\": \"role-name\", \"action\": \"description\", \"input\": \"specific input\", \"expectedOutput\": \"expected result\"\x7d]\x7d\n"

/-- The error `createPlan` throws when the director's returned response has
`success === false`. -/
def planFailedMsg : String := "Failed to create a plan. The director agent failed."

/-- `BradyAI.createPlan(task)`: execute the planning prompt as step
`0-plan` under role `director`, reject an unsuccessful response, and feed
the response text through `parsePlan`. -/
def createPlan (prims : ParsePrims) (env : StepEnv) (roles : Roles) (rl : RateLimits)
    (task : Task) (k : Nat) (st : RLState) :
    Except String ParsedPlan × Nat × RLState :=
  let directorStep : OrchestrationStep :=
    { stepId := "0-plan", agent := "director", action := "Create orchestration plan",
      input := planPrompt roles task, expectedOutput := "A valid JSON orchestration plan." }
  match executeStep env roles rl directorStep task k st with
  | (.error e, k', st') => (.error e, k', st')
  | (.ok planResult, k', st') =>
      if !planResult.success then (.error planFailedMsg, k', st')
      else (.ok (parsePlan prims planResult.result task), k', st')

/-! Helper lemmas about substring containment. -/

theorem charsLead_append (p rest : List Char) : charsLead p (p ++ rest) = true := by
  induction p with
  | nil => rfl
  | cons c cs ih => simp [charsLead, ih]

theorem charsContains_cons (pat : List Char) (c : Char) (rest : List Char) :
    charsContains pat (c :: rest) = (charsLead pat (c :: rest) || charsContains pat rest) := rfl

theorem charsContains_middle (p pre post : List Char) :
    charsContains p (pre ++ (p ++ post)) = true := by
  induction pre with
  | nil =>
      show charsContains p (p ++ post) = true
      cases h : p ++ post with
      | nil =>
          rcases List.append_eq_nil.mp h with ⟨hp, _⟩
          subst hp
          simp [charsContains, charsLead]
      | cons c rest =>
          rw [charsContains_cons, ← h, charsLead_append p post, Bool.true_or]
  | cons d ds ih =>
      rw [List.cons_append, charsContains_cons, ih, Bool.or_true]

theorem strContains_middle (a b c : String) : strContains (a ++ (b ++ c)) b = true := by
  have h : (a ++ (b ++ c)).toList = a.toList ++ (b.toList ++ c.toList) := rfl
  rw [strContains, h]
  exact charsContains_middle b.toList a.toList c.toList

theorem strContains_suffix (a b : String) : strContains (a ++ b) b = true := by
  have := strContains_middle a b ""
  simpa using this

/-! Claim C2: providers absent from the rate-limit configuration are always
admitted, whatever sequence of `wait`/`enterCooldown` calls preceded. -/

/-- An observable operation on the shared RateLimiter: an admission check
(`wait`) or an explicit cooldown trip, each at some clock reading. -/
inductive RLOp where
  | waitCall (provider : String) (now : Int)
  | cool (provider : String) (now : Int)

/-- The state after one RateLimiter operation. -/
def applyOp (rl : RateLimits) (st : RLState) : RLOp → RLState
  | .waitCall p now => (RateLimiter.wait rl st p now).2
  | .cool p now => RateLimiter.enterCooldown rl st p now

/-- The state after a sequence of RateLimiter operations. -/
def applyOps (rl : RateLimits) (st : RLState) : List RLOp → RLState
  | [] => st
  | op :: rest => applyOps rl (applyOp rl st op) rest

theorem enterCooldown_unconfigured (rl : RateLimits) (P : String) (h : rl P = none)
    (st : RLState) (q : String) (now : Int) :
    (RateLimiter.enterCooldown rl st q now).providerCooldownUntil P =
      st.providerCooldownUntil P := by
  unfold RateLimiter.enterCooldown
  cases hq : rl q with
  | none => rfl
  | some cfg =>
      by_cases hPq : P = q
      · subst hPq; rw [h] at hq; cases hq
      · simp [setMap, hPq]

theorem applyOp_cooldown_unconfigured (rl : RateLimits) (P : String) (h : rl P = none)
    (st : RLState) (op : RLOp) :
    (applyOp rl st op).providerCooldownUntil P = st.providerCooldownUntil P := by
  cases op with
  | cool q now => exact enterCooldown_unconfigured rl P h st q now
  | waitCall q now =>
      show (RateLimiter.wait rl st q now).2.providerCooldownUntil P = _
      unfold RateLimiter.wait
      by_cases hcd : cooldownActive st q now
      · simp [hcd]
      · simp only [hcd, Bool.false_eq_true, if_false]
        cases hq : rl q with
        | none => rfl
        | some cfg =>
            simp only []
            by_cases hcount : cfg.requestsPerMinute ≤
                (((st.providerRequestTimestamps q).filter
                  (fun ts => decide (now - 60000 < ts))).length : Int)
            · simp [hcount, enterCooldown_unconfigured rl P h]
            · simp [hcount]

theorem applyOps_cooldown_unconfigured (rl : RateLimits) (P : String) (h : rl P = none)
    (ops : List RLOp) : ∀ st : RLState,
    (applyOps rl st ops).providerCooldownUntil P = st.providerCooldownUntil P := by
  induction ops with
  | nil => intro st; rfl
  | cons op rest ih =>
      intro st
      show (applyOps rl (applyOp rl st op) rest).providerCooldownUntil P = _
      rw [ih (applyOp rl st op), applyOp_cooldown_unconfigured rl P h st op]

/-- Claim C2: for every provider `P` with no entry in the `rateLimits`
configuration, `wait(P)` returns allowed at any time, after any prior
sequence of `wait`/`enterCooldown` calls (for any providers, at any times)
starting from the freshly constructed limiter. -/
theorem C2_unconfigured_always_allowed (rl : RateLimits) (P : String) (h : rl P = none)
    (ops : List RLOp) (now : Int) :
    (RateLimiter.wait rl (applyOps rl RLState.init ops) P now).1 = true := by
  have hcd : (applyOps rl RLState.init ops).providerCooldownUntil P = none := by
    rw [applyOps_cooldown_unconfigured rl P h ops RLState.init]; rfl
  unfold RateLimiter.wait
  have : cooldownActive (applyOps rl RLState.init ops) P now = false := by
    unfold cooldownActive
    rw [hcd]
  rw [this]
  simp [h]

/-! Claim C3: the sliding window refuses the (N+1)-th request and trips a
cooldown; the cooldown refuses everything until it expires. -/

theorem wait_refused_during_cooldown (rl : RateLimits) (st : RLState) (P : String)
    (now cu : Int) (hcu : st.providerCooldownUntil P = some cu) (h0 : cu ≠ 0)
    (hlt : now < cu) :
    RateLimiter.wait rl st P now = (false, st) := by
  have hact : cooldownActive st P now = true := by
    unfold cooldownActive
    rw [hcu]
    simp [h0, hlt]
  unfold RateLimiter.wait
  rw [hact]
  simp

theorem wait_refuses_and_trips_cooldown (rl : RateLimits) (st : RLState) (P : String)
    (now : Int) (cfg : RateLimitConfig) (hcfg : rl P = some cfg)
    (hcd : cooldownActive st P now = false)
    (hcount : cfg.requestsPerMinute ≤
      (((st.providerRequestTimestamps P).filter
        (fun ts => decide (now - 60000 < ts))).length : Int)) :
    RateLimiter.wait rl st P now = (false, RateLimiter.enterCooldown rl st P now) ∧
    (RateLimiter.enterCooldown rl st P now).providerCooldownUntil P =
      some (now + cfg.cooldownSeconds * 1000) := by
  constructor
  · unfold RateLimiter.wait
    rw [hcd]
    simp only [Bool.false_eq_true, if_false, hcfg]
    rw [if_pos hcount]
  · unfold RateLimiter.enterCooldown
    rw [hcfg]
    simp [setMap]

/-- A sequence of `wait` calls for one provider at the given times,
returning each call's `allowed` flag and the final limiter state. -/
def waitSeq (rl : RateLimits) (P : String) (st : RLState) :
    List Int → List Bool × RLState
  | [] => ([], st)
  | t :: ts =>
      let w := RateLimiter.wait rl st P t
      let rest := waitSeq rl P w.2 ts
      (w.1 :: rest.1, rest.2)

theorem waitSeq_all_allowed (rl : RateLimits) (P : String) (cfg : RateLimitConfig)
    (hcfg : rl P = some cfg) :
    ∀ (times acc : List Int) (st : RLState),
      st.providerCooldownUntil P = none →
      st.providerRequestTimestamps P = acc →
      ((acc.length + times.length : Int) ≤ cfg.requestsPerMinute) →
      (∀ x ∈ acc ++ times, ∀ y ∈ acc ++ times, y - 60000 < x) →
      (waitSeq rl P st times).1 = List.replicate times.length true ∧
      (waitSeq rl P st times).2.providerRequestTimestamps P = acc ++ times ∧
      (waitSeq rl P st times).2.providerCooldownUntil P = none := by
  intro times
  induction times with
  | nil =>
      intro acc st hcd hts _ _
      refine ⟨rfl, ?_, hcd⟩
      simpa [waitSeq] using hts
  | cons t ts ih =>
      intro acc st hcd hts hlen hwin
      have hact : cooldownActive st P t = false := by
        unfold cooldownActive
        rw [hcd]
      have hfilter : (st.providerRequestTimestamps P).filter
          (fun ts' => decide (t - 60000 < ts')) = acc := by
        rw [hts]
        apply List.filter_eq_self.mpr
        intro a ha
        simp only [decide_eq_true_eq]
        exact hwin a (by simp [ha]) t (by simp)
      have hlt : ¬ (cfg.requestsPerMinute ≤ (acc.length : Int)) := by
        simp only [List.length_cons] at hlen
        push_cast at hlen
        omega
      have hwait : RateLimiter.wait rl st P t =
          (true, { st with providerRequestTimestamps := setMap st.providerRequestTimestamps P (acc ++ [t]) }) := by
        unfold RateLimiter.wait
        rw [hact]
        simp only [Bool.false_eq_true, if_false, hcfg]
        rw [hfilter, if_neg hlt]
      have hmem : ∀ z : Int, z ∈ (acc ++ [t]) ++ ts ↔ z ∈ acc ++ t :: ts := by
        intro z
        simp only [List.mem_append, List.mem_cons, List.mem_singleton]
        tauto
      have ihz := ih (acc ++ [t])
        { st with providerRequestTimestamps := setMap st.providerRequestTimestamps P (acc ++ [t]) }
        hcd (by simp [setMap])
        (by simp only [List.length_cons] at hlen
            simp only [List.length_append, List.length_cons, List.length_nil]
            push_cast at hlen ⊢
            omega)
        (by intro x hx y hy
            exact hwin x ((hmem x).mp hx) y ((hmem y).mp hy))
      have hstep : waitSeq rl P st (t :: ts) =
          ((RateLimiter.wait rl st P t).1 ::
            (waitSeq rl P (RateLimiter.wait rl st P t).2 ts).1,
           (waitSeq rl P (RateLimiter.wait rl st P t).2 ts).2) := rfl
      rw [hstep, hwait]
      refine ⟨?_, ?_, ?_⟩
      · show true :: (waitSeq rl P _ ts).1 = List.replicate (t :: ts).length true
        rw [ihz.1]
        rfl
      · show (waitSeq rl P _ ts).2.providerRequestTimestamps P = acc ++ t :: ts
        rw [ihz.2.1, List.append_assoc, List.singleton_append]
      · exact ihz.2.2

/-- Claim C3: (i) whenever no cooldown blocks a configured provider `P` and
its pruned 60-second window already holds at least `requestsPerMinute`
entries, `wait(P)` refuses and stamps a cooldown expiring
`cooldownSeconds` seconds later; (ii) while a (nonzero) cooldown has not
expired, `wait(P)` refuses and leaves the state untouched, regardless of
window occupancy; (iii) end to end: starting from a fresh limiter, `N`
admitted calls at nondecreasing-window times are all allowed, the
`(N+1)`-th call inside the same 60-second window is refused with a cooldown
of `cooldownSeconds` from that call's time, and every call before that
expiry is refused. -/
theorem C3_window_refusal_and_cooldown :
    (∀ (rl : RateLimits) (st : RLState) (P : String) (now : Int) (cfg : RateLimitConfig),
      rl P = some cfg → cooldownActive st P now = false →
      cfg.requestsPerMinute ≤
        (((st.providerRequestTimestamps P).filter
          (fun ts => decide (now - 60000 < ts))).length : Int) →
      RateLimiter.wait rl st P now = (false, RateLimiter.enterCooldown rl st P now) ∧
        (RateLimiter.enterCooldown rl st P now).providerCooldownUntil P =
          some (now + cfg.cooldownSeconds * 1000)) ∧
    (∀ (rl : RateLimits) (st : RLState) (P : String) (now cu : Int),
      st.providerCooldownUntil P = some cu → cu ≠ 0 → now < cu →
      RateLimiter.wait rl st P now = (false, st)) ∧
    (∀ (rl : RateLimits) (P : String) (cfg : RateLimitConfig) (times : List Int) (t : Int),
      rl P = some cfg →
      (times.length : Int) = cfg.requestsPerMinute →
      (∀ x ∈ times, ∀ y ∈ times ++ [t], y - 60000 < x) →
      0 ≤ t → 0 < cfg.cooldownSeconds →
      (waitSeq rl P RLState.init times).1 = List.replicate times.length true ∧
      (RateLimiter.wait rl (waitSeq rl P RLState.init times).2 P t).1 = false ∧
      (RateLimiter.wait rl (waitSeq rl P RLState.init times).2 P t).2.providerCooldownUntil P =
        some (t + cfg.cooldownSeconds * 1000) ∧
      (∀ tc : Int, tc < t + cfg.cooldownSeconds * 1000 →
        (RateLimiter.wait rl
          (RateLimiter.wait rl (waitSeq rl P RLState.init times).2 P t).2 P tc).1 = false)) := by
  refine ⟨fun rl st P now cfg hcfg hcd hcount =>
      wait_refuses_and_trips_cooldown rl st P now cfg hcfg hcd hcount,
    fun rl st P now cu hcu h0 hlt => wait_refused_during_cooldown rl st P now cu hcu h0 hlt,
    ?_⟩
  intro rl P cfg times t hcfg hlenN hwin ht hC
  have hrun := waitSeq_all_allowed rl P cfg hcfg times [] RLState.init rfl rfl
    (by simp only [List.length_nil]
        push_cast
        omega)
    (by intro x hx y hy
        simp only [List.nil_append] at hx hy
        refine hwin x hx y ?_
        simp [hy])
  obtain ⟨hflags, htsF, hcdF⟩ := hrun
  have htsF' : (waitSeq rl P RLState.init times).2.providerRequestTimestamps P = times := by
    simpa using htsF
  have hactF : cooldownActive (waitSeq rl P RLState.init times).2 P t = false := by
    unfold cooldownActive
    rw [hcdF]
  have hfiltF : (((waitSeq rl P RLState.init times).2.providerRequestTimestamps P).filter
      (fun ts => decide (t - 60000 < ts))) = times := by
    rw [htsF']
    apply List.filter_eq_self.mpr
    intro a ha
    simp only [decide_eq_true_eq]
    refine hwin a ha t ?_
    simp
  have hcountF : cfg.requestsPerMinute ≤
      ((((waitSeq rl P RLState.init times).2.providerRequestTimestamps P).filter
        (fun ts => decide (t - 60000 < ts))).length : Int) := by
    rw [hfiltF]
    exact hlenN.symm.le
  have hrefuse := wait_refuses_and_trips_cooldown rl (waitSeq rl P RLState.init times).2 P t
    cfg hcfg hactF hcountF
  have hcu : (RateLimiter.wait rl (waitSeq rl P RLState.init times).2 P t).2.providerCooldownUntil
      P = some (t + cfg.cooldownSeconds * 1000) := by
    rw [hrefuse.1]
    exact hrefuse.2
  refine ⟨hflags, ?_, hcu, ?_⟩
  · rw [hrefuse.1]
  · intro tc htc
    have h0 : t + cfg.cooldownSeconds * 1000 ≠ 0 := by omega
    rw [wait_refused_during_cooldown rl _ P tc (t + cfg.cooldownSeconds * 1000) hcu h0 htc]

/-! Claim C4: the fallback candidate sequence is the providers sorted by
ascending priority, each provider contributing its models in declaration
order. -/

theorem insertByPriority_eq_orderedInsert (x : ProviderEntry) (l : List ProviderEntry) :
    insertByPriority x l =
      List.orderedInsert (fun a b => a.priority ≤ b.priority) x l := by
  induction l with
  | nil => rfl
  | cons y ys ih =>
      by_cases h : x.priority ≤ y.priority
      · simp [insertByPriority, List.orderedInsert, h]
      · simp [insertByPriority, List.orderedInsert, h, ih]

theorem sortByPriority_eq_insertionSort (l : List ProviderEntry) :
    sortByPriority l = List.insertionSort (fun a b => a.priority ≤ b.priority) l := by
  induction l with
  | nil => rfl
  | cons x xs ih =>
      show insertByPriority x (sortByPriority xs) = _
      rw [ih, insertByPriority_eq_orderedInsert]
      rfl

theorem sortByPriority_perm (l : List ProviderEntry) : (sortByPriority l).Perm l := by
  rw [sortByPriority_eq_insertionSort]
  exact List.perm_insertionSort _ l

theorem sortByPriority_sorted (l : List ProviderEntry) :
    (sortByPriority l).Sorted (fun a b => a.priority ≤ b.priority) := by
  rw [sortByPriority_eq_insertionSort]
  haveI : IsTotal ProviderEntry (fun a b => a.priority ≤ b.priority) :=
    ⟨fun a b => Int.le_total a.priority b.priority⟩
  haveI : IsTrans ProviderEntry (fun a b => a.priority ≤ b.priority) :=
    ⟨fun _ _ _ h1 h2 => le_trans h1 h2⟩
  exact List.sorted_insertionSort _ l

theorem sorted_strict_of_nodup_priorities (L : List ProviderEntry)
    (hs : L.Sorted (fun a b => a.priority ≤ b.priority))
    (hn : (L.map (fun p => p.priority)).Nodup) :
    L.Sorted (fun a b => a.priority < b.priority) := by
  have hpw : L.Pairwise (fun a b => a.priority ≠ b.priority) :=
    (List.pairwise_map.mp hn)
  exact (hs.and hpw).imp (fun h => lt_of_le_of_ne h.1 h.2)

/-- Claim C4: `prioritizedModels` is the flattening, provider by provider in
declared-model order, of a sorted-by-ascending-priority permutation of the
role's provider list; and whenever the priority numbers are pairwise
distinct, that candidate sequence is the flattening of THE unique sorted
permutation — i.e. the order is fully determined by "ascending priority,
then declaration order of models". -/
theorem C4_candidate_order (providers : List ProviderEntry) :
    (sortByPriority providers).Perm providers ∧
    (sortByPriority providers).Sorted (fun a b => a.priority ≤ b.priority) ∧
    prioritizedModels providers = (sortByPriority providers).flatMap providerCandidates ∧
    (∀ L : List ProviderEntry, L.Perm providers →
      L.Sorted (fun a b => a.priority ≤ b.priority) →
      (providers.map (fun p => p.priority)).Nodup →
      prioritizedModels providers = L.flatMap providerCandidates) := by
  refine ⟨sortByPriority_perm providers, sortByPriority_sorted providers, rfl, ?_⟩
  intro L hperm hsorted hnodup
  have hnodupL : (L.map (fun p => p.priority)).Nodup :=
    ((hperm.map (fun p => p.priority)).nodup_iff).mpr hnodup
  have hnodupS : ((sortByPriority providers).map (fun p => p.priority)).Nodup :=
    (((sortByPriority_perm providers).map (fun p => p.priority)).nodup_iff).mpr hnodup
  have hsL : L.Sorted (fun a b => a.priority < b.priority) :=
    sorted_strict_of_nodup_priorities L hsorted hnodupL
  have hsS : (sortByPriority providers).Sorted (fun a b => a.priority < b.priority) :=
    sorted_strict_of_nodup_priorities _ (sortByPriority_sorted providers) hnodupS
  have hantisymm : IsAntisymm ProviderEntry (fun a b => a.priority < b.priority) :=
    ⟨fun a b h1 h2 => absurd (lt_trans h1 h2) (lt_irrefl _)⟩
  have heq : sortByPriority providers = L :=
    @List.eq_of_perm_of_sorted ProviderEntry (fun a b => a.priority < b.priority) hantisymm
      _ _ ((sortByPriority_perm providers).trans hperm.symm) hsS hsL
  show (sortByPriority providers).flatMap providerCandidates = L.flatMap providerCandidates
  rw [heq]

/-! Trace analysis of the candidate loop: the tick/state pair after a run of
attempts, and the Boolean "no attempt of this run succeeded". These are
proof-side views of the loop in `executeStep`, built from the same
`attemptCandidate` step function. -/

/-- The tick counter and limiter state after attempting each candidate of
the list in turn (regardless of outcomes — only a success stops the real
loop, and a success leaves the state of its own attempt in place). -/
def afterCandidates (env : StepEnv) (rl : RateLimits) (input taskType : String)
    (k : Nat) (st : RLState) : List Candidate → Nat × RLState
  | [] => (k, st)
  | c :: rest =>
      afterCandidates env rl input taskType (k + 1)
        (attemptCandidate env rl input taskType c (env.clock k) st).2 rest

/-- True when no attempt along the run of this candidate list (threading
ticks and limiter state) is a success: each is refused by the rate limiter,
lacks a registered agent, throws, or returns `success === false`. -/
def noSuccessAlong (env : StepEnv) (rl : RateLimits) (input taskType : String)
    (k : Nat) (st : RLState) : List Candidate → Bool
  | [] => true
  | c :: rest =>
      !(attemptCandidate env rl input taskType c (env.clock k) st).1.isSucceeded &&
      noSuccessAlong env rl input taskType (k + 1)
        (attemptCandidate env rl input taskType c (env.clock k) st).2 rest

theorem attemptCandidate_succeeded (env : StepEnv) (rl : RateLimits)
    (input taskType : String) (c : Candidate) (now : Int) (st : RLState)
    (r : AgentResponse) (st2 : RLState)
    (h : attemptCandidate env rl input taskType c now st = (.succeeded r, st2)) :
    env.exec c input taskType = .responded r ∧ r.success = true ∧
      st2 = (RateLimiter.wait rl st c.provider now).2 := by
  simp only [attemptCandidate] at h
  cases hw : (RateLimiter.wait rl st c.provider now).1 with
  | false => rw [hw] at h; simp at h
  | true =>
      rw [hw] at h
      simp only [Bool.not_true, Bool.false_eq_true, if_false] at h
      cases hag : env.hasAgent c.provider c.model with
      | false => rw [hag] at h; simp at h
      | true =>
          rw [hag] at h
          simp only [Bool.not_true, Bool.false_eq_true, if_false] at h
          cases hx : env.exec c input taskType with
          | threw msg =>
              rw [hx] at h
              by_cases hc : throwTriggersCooldown msg = true <;> simp [hc] at h
          | responded r0 =>
              rw [hx] at h
              simp only [] at h
              by_cases hs : r0.success = true
              · rw [if_pos hs] at h
                injection h with h1 h2
                obtain rfl : r0 = r := Attempt.succeeded.inj h1
                exact ⟨rfl, hs, h2.symm⟩
              · rw [if_neg hs] at h
                simp at h

theorem attemptCandidate_of_success (env : StepEnv) (rl : RateLimits)
    (input taskType : String) (c : Candidate) (now : Int) (st : RLState)
    (r : AgentResponse)
    (hallow : (RateLimiter.wait rl st c.provider now).1 = true)
    (hagent : env.hasAgent c.provider c.model = true)
    (hexec : env.exec c input taskType = .responded r)
    (hsucc : r.success = true) :
    attemptCandidate env rl input taskType c now st =
      (.succeeded r, (RateLimiter.wait rl st c.provider now).2) := by
  simp only [attemptCandidate]
  rw [hallow, hagent]
  simp only [Bool.not_true, Bool.false_eq_true, if_false]
  rw [hexec]
  simp only []
  rw [if_pos hsucc]

theorem runCandidates_cons_eq (env : StepEnv) (rl : RateLimits)
    (input taskType role stepId : String) (k : Nat) (st : RLState)
    (c : Candidate) (rest : List Candidate) :
    runCandidates env rl input taskType role stepId k st (c :: rest) =
      (match attemptCandidate env rl input taskType c (env.clock k) st with
       | (.succeeded r, st') => (.ok r, k + 1, st')
       | (_, st') => runCandidates env rl input taskType role stepId (k + 1) st' rest) := rfl

theorem runCandidates_cons_success (env : StepEnv) (rl : RateLimits)
    (input taskType role stepId : String) (k : Nat) (st : RLState)
    (c : Candidate) (rest : List Candidate) (r : AgentResponse) (st2 : RLState)
    (h : attemptCandidate env rl input taskType c (env.clock k) st = (.succeeded r, st2)) :
    runCandidates env rl input taskType role stepId k st (c :: rest) = (.ok r, k + 1, st2) := by
  rw [runCandidates_cons_eq, h]

theorem runCandidates_cons_skip (env : StepEnv) (rl : RateLimits)
    (input taskType role stepId : String) (k : Nat) (st : RLState)
    (c : Candidate) (rest : List Candidate)
    (h : (attemptCandidate env rl input taskType c (env.clock k) st).1.isSucceeded = false) :
    runCandidates env rl input taskType role stepId k st (c :: rest) =
      runCandidates env rl input taskType role stepId (k + 1)
        (attemptCandidate env rl input taskType c (env.clock k) st).2 rest := by
  rw [runCandidates_cons_eq]
  rcases ha : attemptCandidate env rl input taskType c (env.clock k) st with ⟨a, st'⟩
  rw [ha] at h
  cases a
  case succeeded r => simp [Attempt.isSucceeded] at h
  all_goals rfl

theorem runCandidates_append_skip (env : StepEnv) (rl : RateLimits)
    (input taskType role stepId : String) (pre : List Candidate) :
    ∀ (k : Nat) (st : RLState) (rest : List Candidate),
      noSuccessAlong env rl input taskType k st pre = true →
      runCandidates env rl input taskType role stepId k st (pre ++ rest) =
        runCandidates env rl input taskType role stepId
          (afterCandidates env rl input taskType k st pre).1
          (afterCandidates env rl input taskType k st pre).2 rest := by
  induction pre with
  | nil => intro k st rest _; rfl
  | cons c cs ih =>
      intro k st rest h
      simp only [noSuccessAlong, Bool.and_eq_true, Bool.not_eq_true'] at h
      obtain ⟨h1, h2⟩ := h
      rw [List.cons_append, runCandidates_cons_skip env rl input taskType role stepId k st c
        (cs ++ rest) h1]
      exact ih (k + 1) _ rest h2

theorem runCandidates_noSuccess_error (env : StepEnv) (rl : RateLimits)
    (input taskType role stepId : String) (cands : List Candidate) :
    ∀ (k : Nat) (st : RLState),
      noSuccessAlong env rl input taskType k st cands = true →
      runCandidates env rl input taskType role stepId k st cands =
        (.error (exhaustedMsg role stepId),
          (afterCandidates env rl input taskType k st cands).1,
          (afterCandidates env rl input taskType k st cands).2) := by
  induction cands with
  | nil => intro k st _; rfl
  | cons c cs ih =>
      intro k st h
      simp only [noSuccessAlong, Bool.and_eq_true, Bool.not_eq_true'] at h
      obtain ⟨h1, h2⟩ := h
      rw [runCandidates_cons_skip env rl input taskType role stepId k st c cs h1]
      exact ih (k + 1) _ h2

theorem runCandidates_error_noSuccess (env : StepEnv) (rl : RateLimits)
    (input taskType role stepId : String) (cands : List Candidate) :
    ∀ (k : Nat) (st : RLState) (e : String),
      (runCandidates env rl input taskType role stepId k st cands).1 = .error e →
      noSuccessAlong env rl input taskType k st cands = true ∧ e = exhaustedMsg role stepId := by
  induction cands with
  | nil =>
      intro k st e h
      refine ⟨rfl, ?_⟩
      exact (Except.error.inj h).symm
  | cons c cs ih =>
      intro k st e h
      cases hs : (attemptCandidate env rl input taskType c (env.clock k) st).1.isSucceeded with
      | true =>
          rcases ha : attemptCandidate env rl input taskType c (env.clock k) st with ⟨a, st'⟩
          rw [ha] at hs
          cases a <;> simp [Attempt.isSucceeded] at hs
          case succeeded r =>
              rw [runCandidates_cons_success env rl input taskType role stepId k st c cs r st'
                ha] at h
              cases h
      | false =>
          rw [runCandidates_cons_skip env rl input taskType role stepId k st c cs hs] at h
          obtain ⟨hns, he⟩ := ih (k + 1) _ e h
          refine ⟨?_, he⟩
          simp only [noSuccessAlong, Bool.and_eq_true, Bool.not_eq_true']
          exact ⟨hs, hns⟩

theorem runCandidates_ok_success (env : StepEnv) (rl : RateLimits)
    (input taskType role stepId : String) (cands : List Candidate) :
    ∀ (k : Nat) (st : RLState) (r : AgentResponse),
      (runCandidates env rl input taskType role stepId k st cands).1 = .ok r →
      r.success = true ∧ ∃ c ∈ cands, env.exec c input taskType = .responded r := by
  induction cands with
  | nil => intro k st r h; cases h
  | cons c cs ih =>
      intro k st r h
      cases hs : (attemptCandidate env rl input taskType c (env.clock k) st).1.isSucceeded with
      | true =>
          rcases ha : attemptCandidate env rl input taskType c (env.clock k) st with ⟨a, st'⟩
          rw [ha] at hs
          cases a <;> simp [Attempt.isSucceeded] at hs
          case succeeded r0 =>
              rw [runCandidates_cons_success env rl input taskType role stepId k st c cs r0 st'
                ha] at h
              obtain rfl : r0 = r := Except.ok.inj h
              obtain ⟨hx, hsucc, _⟩ := attemptCandidate_succeeded env rl input taskType c
                (env.clock k) st r0 st' ha
              exact ⟨hsucc, c, List.mem_cons_self c cs, hx⟩
      | false =>
          rw [runCandidates_cons_skip env rl input taskType role stepId k st c cs hs] at h
          obtain ⟨hsucc, c', hc', hx⟩ := ih (k + 1) _ r h
          exact ⟨hsucc, c', List.mem_cons_of_mem c hc', hx⟩

theorem strAppendAssoc (a b c : String) : a ++ b ++ c = a ++ (b ++ c) := by
  apply String.toList_inj.mp
  show (a.toList ++ b.toList) ++ c.toList = a.toList ++ (b.toList ++ c.toList)
  exact List.append_assoc _ _ _

theorem executeStep_no_role (env : StepEnv) (roles : Roles) (rl : RateLimits)
    (step : OrchestrationStep) (task : Task) (k : Nat) (st : RLState)
    (h : roles.lookup step.agent = none) :
    executeStep env roles rl step task k st = (.error (noModelsMsg step.agent), k, st) := by
  unfold executeStep
  rw [h]

theorem executeStep_empty_role (env : StepEnv) (roles : Roles) (rl : RateLimits)
    (step : OrchestrationStep) (task : Task) (k : Nat) (st : RLState)
    (h : roles.lookup step.agent = some []) :
    executeStep env roles rl step task k st = (.error (noModelsMsg step.agent), k, st) := by
  unfold executeStep
  rw [h]
  simp

theorem executeStep_configured (env : StepEnv) (roles : Roles) (rl : RateLimits)
    (step : OrchestrationStep) (task : Task) (k : Nat) (st : RLState)
    (provs : List ProviderEntry)
    (h : roles.lookup step.agent = some provs) (hne : provs.isEmpty = false) :
    executeStep env roles rl step task k st =
      runCandidates env rl step.input task.type step.agent step.stepId k st
        (prioritizedModels provs) := by
  unfold executeStep
  rw [h]
  simp only [hne, Bool.false_eq_true, if_false]

theorem executeStep_error_forms (env : StepEnv) (roles : Roles) (rl : RateLimits)
    (step : OrchestrationStep) (task : Task) (k : Nat) (st : RLState)
    (e : String) (k2 : Nat) (st2 : RLState)
    (h : executeStep env roles rl step task k st = (.error e, k2, st2)) :
    e = noModelsMsg step.agent ∨ e = exhaustedMsg step.agent step.stepId := by
  unfold executeStep at h
  cases hl : roles.lookup step.agent with
  | none =>
      rw [hl] at h
      left
      exact (Except.error.inj (congrArg Prod.fst h)).symm
  | some provs =>
      rw [hl] at h
      simp only [] at h
      by_cases hne : provs.isEmpty = true
      · rw [if_pos hne] at h
        left
        exact (Except.error.inj (congrArg Prod.fst h)).symm
      · rw [if_neg hne] at h
        right
        have h1 : (runCandidates env rl step.input task.type step.agent step.stepId k st
            (prioritizedModels provs)).1 = .error e := by rw [h]
        exact (runCandidates_error_noSuccess env rl step.input task.type step.agent step.stepId
          (prioritizedModels provs) k st e h1).2

theorem executeStep_ok_success (env : StepEnv) (roles : Roles) (rl : RateLimits)
    (step : OrchestrationStep) (task : Task) (k : Nat) (st : RLState) (r : AgentResponse)
    (h : (executeStep env roles rl step task k st).1 = .ok r) : r.success = true := by
  unfold executeStep at h
  cases hl : roles.lookup step.agent with
  | none => rw [hl] at h; cases h
  | some provs =>
      rw [hl] at h
      simp only [] at h
      by_cases hne : provs.isEmpty = true
      · rw [if_pos hne] at h; cases h
      · rw [if_neg hne] at h
        exact (runCandidates_ok_success env rl step.input task.type step.agent step.stepId
          (prioritizedModels provs) k st r h).1

/-- Claim C5: when the fallback sequence splits as `pre ++ c :: post`, no
attempt along `pre` succeeds (each is refused, unregistered, throws, or
returns `success === false`), and candidate `c`'s attempt is admitted,
registered and returns a successful response `r`, then `executeStep`
returns exactly `r` — whatever the candidates in `post` would do (the
conclusion does not depend on `post`, so no candidate after `c` is
invoked). -/
theorem C5_first_success_wins (env : StepEnv) (roles : Roles) (rl : RateLimits)
    (step : OrchestrationStep) (task : Task) (k : Nat) (st : RLState)
    (provs : List ProviderEntry) (pre post : List Candidate) (c : Candidate)
    (r : AgentResponse)
    (hrole : roles.lookup step.agent = some provs)
    (hne : provs.isEmpty = false)
    (hseq : prioritizedModels provs = pre ++ c :: post)
    (hpre : noSuccessAlong env rl step.input task.type k st pre = true)
    (hallow : (RateLimiter.wait rl (afterCandidates env rl step.input task.type k st pre).2
        c.provider (env.clock (afterCandidates env rl step.input task.type k st pre).1)).1 =
        true)
    (hagent : env.hasAgent c.provider c.model = true)
    (hexec : env.exec c step.input task.type = .responded r)
    (hsucc : r.success = true) :
    executeStep env roles rl step task k st =
      (.ok r, (afterCandidates env rl step.input task.type k st pre).1 + 1,
        (RateLimiter.wait rl (afterCandidates env rl step.input task.type k st pre).2
          c.provider (env.clock (afterCandidates env rl step.input task.type k st pre).1)).2) := by
  rw [executeStep_configured env roles rl step task k st provs hrole hne, hseq,
    runCandidates_append_skip env rl step.input task.type step.agent step.stepId pre k st
      (c :: post) hpre]
  exact runCandidates_cons_success env rl step.input task.type step.agent step.stepId _ _ c post
    r _ (attemptCandidate_of_success env rl step.input task.type c _ _ r hallow hagent hexec
      hsucc)

/-- Claim C6: `executeStep` throws exactly when the role has no configured
providers (error naming the role) or when no attempt along the whole
fallback sequence succeeds — and in the exhausted case the error message is
the terminal message, which contains both the role and the step id as
substrings. Conversely a returned (non-thrown) response always comes from
some candidate's successful invocation. -/
theorem C6_error_iff_all_fail :
    (∀ (env : StepEnv) (roles : Roles) (rl : RateLimits) (step : OrchestrationStep)
      (task : Task) (k : Nat) (st : RLState),
      (roles.lookup step.agent = none ∨ roles.lookup step.agent = some []) →
      executeStep env roles rl step task k st = (.error (noModelsMsg step.agent), k, st)) ∧
    (∀ (env : StepEnv) (roles : Roles) (rl : RateLimits) (step : OrchestrationStep)
      (task : Task) (k : Nat) (st : RLState) (provs : List ProviderEntry),
      roles.lookup step.agent = some provs → provs.isEmpty = false →
      (∀ e : String, (executeStep env roles rl step task k st).1 = .error e ↔
        (noSuccessAlong env rl step.input task.type k st (prioritizedModels provs) = true ∧
          e = exhaustedMsg step.agent step.stepId)) ∧
      (∀ r : AgentResponse, (executeStep env roles rl step task k st).1 = .ok r →
        r.success = true ∧
          ∃ c ∈ prioritizedModels provs, env.exec c step.input task.type = .responded r)) ∧
    (∀ role stepId : String, strContains (exhaustedMsg role stepId) role = true ∧
      strContains (exhaustedMsg role stepId) stepId = true) := by
  refine ⟨?_, ?_, ?_⟩
  · intro env roles rl step task k st h
    cases h with
    | inl h => exact executeStep_no_role env roles rl step task k st h
    | inr h => exact executeStep_empty_role env roles rl step task k st h
  · intro env roles rl step task k st provs hrole hne
    rw [executeStep_configured env roles rl step task k st provs hrole hne]
    constructor
    · intro e
      constructor
      · intro h
        exact runCandidates_error_noSuccess env rl step.input task.type step.agent step.stepId
          (prioritizedModels provs) k st e h
      · rintro ⟨hns, rfl⟩
        rw [runCandidates_noSuccess_error env rl step.input task.type step.agent step.stepId
          (prioritizedModels provs) k st hns]
    · intro r h
      exact runCandidates_ok_success env rl step.input task.type step.agent step.stepId
        (prioritizedModels provs) k st r h
  · intro role stepId
    constructor
    · have h : exhaustedMsg role stepId = "[Orchestrator] All models for role " ++
          (role ++ (" failed to execute step " ++ stepId)) := by
        unfold exhaustedMsg
        rw [strAppendAssoc, strAppendAssoc]
      rw [h]
      exact strContains_middle _ _ _
    · exact strContains_suffix _ _

/-- Claim C10: every `AgentResponse` that `executeStep` returns (rather
than throwing) has `success = true`; consequently the
"Failed to create a plan" branch of `createPlan` — reached only when the
returned planning response has `success === false` — can never produce
that error. -/
theorem C10_returned_response_always_success :
    (∀ (env : StepEnv) (roles : Roles) (rl : RateLimits) (step : OrchestrationStep)
      (task : Task) (k : Nat) (st : RLState) (r : AgentResponse),
      (executeStep env roles rl step task k st).1 = .ok r → r.success = true) ∧
    (∀ (prims : ParsePrims) (env : StepEnv) (roles : Roles) (rl : RateLimits)
      (task : Task) (k : Nat) (st : RLState),
      (createPlan prims env roles rl task k st).1 ≠ .error planFailedMsg) := by
  refine ⟨executeStep_ok_success, ?_⟩
  intro prims env roles rl task k st
  simp only [createPlan]
  rcases hx : executeStep env roles rl
      { stepId := "0-plan", agent := "director", action := "Create orchestration plan",
        input := planPrompt roles task, expectedOutput := "A valid JSON orchestration plan." }
      task k st with ⟨ex, k2, st2⟩
  cases ex with
  | error e =>
      simp only []
      intro hcontra
      have he : e = planFailedMsg := Except.error.inj hcontra
      have hforms := executeStep_error_forms env roles rl _ task k st e k2 st2 hx
      cases hforms with
      | inl hf =>
          rw [he] at hf
          have hf' : planFailedMsg = noModelsMsg "director" := hf
          exact absurd hf' (by decide)
      | inr hf =>
          rw [he] at hf
          have hf' : planFailedMsg = exhaustedMsg "director" "0-plan" := hf
          exact absurd hf' (by decide)
  | ok r =>
      have hs : r.success = true := executeStep_ok_success env roles rl _ task k st r (by rw [hx])
      simp [hs]

/-- Claim C7: whenever extraction fails (no code-block and no bare-object
match, unparseable JSON, or a missing/falsy/non-array `steps` field),
`parsePlan` returns the deterministic fallback plan: a single step whose
role (`agent` field) is "coder", whose `input` contains the task
description verbatim, and whose `reasoning` notes the parse failure.
Together with the success branch this makes `parsePlan` total — every
input yields a usable plan. -/
theorem C7_parsePlan_fallback (prims : ParsePrims) (planText : String) (task : Task)
    (hfail : planParseFails prims planText = true) :
    parsePlan prims planText task = fallbackPlan task ∧
    (fallbackPlan task).steps = [fallbackStep task] ∧
    (fallbackStep task).getField "agent" = some (.str "coder") ∧
    (fallbackStep task).getField "input" = some (.str ("Task: " ++ task.description)) ∧
    strContains ("Task: " ++ task.description) task.description = true ∧
    (fallbackPlan task).reasoning = "Fallback single-step plan (JSON parsing failed)" ∧
    strContains (fallbackPlan task).reasoning "JSON parsing failed" = true := by
  refine ⟨?_, rfl, rfl, rfl, strContains_suffix "Task: " task.description, rfl, ?_⟩
  · simp only [planParseFails] at hfail
    simp only [parsePlan]
    by_cases h0 : extractJsonString prims planText = ""
    · rw [if_pos h0]
    · rw [if_neg h0]
      rw [Bool.or_eq_true] at hfail
      cases hfail with
      | inl hb => exact absurd (beq_iff_eq.mp hb) h0
      | inr hb =>
          cases hp : prims.jsonParse (extractJsonString prims planText) with
          | none => rfl
          | some v =>
              rw [hp] at hb
              simp only [] at hb
              simp only []
              cases hsv : stepsOf v with
              | none => rfl
              | some steps => rw [hsv] at hb; simp at hb
  · show strContains "Fallback single-step plan (JSON parsing failed)" "JSON parsing failed" =
      true
    decide

/-- Claim C8: when the input holds a fenced code block whose (non-empty)
extracted text parses as a JSON value with a `steps` array, `parsePlan`
returns a plan whose `steps` is exactly that array and whose `taskId` is
the task's id. (The claim's non-emptiness assumption is carried along; the
code does not need it.) -/
theorem C8_parsePlan_fenced (prims : ParsePrims) (planText : String) (task : Task)
    (jsonStr : String) (v : Js) (steps : List Js)
    (hcb : prims.codeBlockMatch planText = some jsonStr)
    (hne : jsonStr ≠ "")
    (hparse : prims.jsonParse jsonStr = some v)
    (hsteps : v.getField "steps" = some (.arr steps))
    (_hnonempty : steps ≠ []) :
    (parsePlan prims planText task).steps = steps ∧
    (parsePlan prims planText task).taskId = task.id := by
  have hex : extractJsonString prims planText = jsonStr := by
    unfold extractJsonString
    rw [hcb]
  have hs : stepsOf v = some steps := by
    unfold stepsOf
    rw [hsteps]
  have hplan : parsePlan prims planText task =
      { taskId := task.id, steps := steps, estimatedCost := 1 / 100,
        estimatedTime := "30s", reasoning := "Auto-generated parallel plan" } := by
    simp only [parsePlan]
    rw [hex, if_neg hne, hparse]
    simp only []
    rw [hs]
  rw [hplan]
  exact ⟨rfl, rfl⟩

/-! Claims C1 and C9: the plan executor. First, helpers describing a run in
which the rate limits are unconfigured, every agent is registered, and
every invocation succeeds — the mock set-up of the spec's end-to-end
property. -/

theorem wait_no_limits (rl : RateLimits) (hrl : ∀ p, rl p = none) (st : RLState)
    (P : String) (now : Int) (hcd : st.providerCooldownUntil P = none) :
    RateLimiter.wait rl st P now = (true, st) := by
  unfold RateLimiter.wait
  have hact : cooldownActive st P now = false := by
    unfold cooldownActive
    rw [hcd]
  rw [hact]
  simp [hrl P]

theorem executeStep_all_success (env : StepEnv) (roles : Roles) (rl : RateLimits)
    (step : OrchestrationStep) (task : Task) (k : Nat)
    (hrl : ∀ p, rl p = none)
    (hagent : ∀ p m, env.hasAgent p m = true)
    (hexec : ∀ c inp tt, ∃ r, env.exec c inp tt = .responded r ∧ r.success = true)
    (hcfg : ∃ provs, roles.lookup step.agent = some provs ∧ provs.isEmpty = false ∧
      prioritizedModels provs ≠ []) :
    ∃ r, executeStep env roles rl step task k RLState.init = (.ok r, k + 1, RLState.init) ∧
      r.success = true := by
  obtain ⟨provs, hrole, hne, hpm⟩ := hcfg
  obtain ⟨c, rest, hcr⟩ : ∃ c rest, prioritizedModels provs = c :: rest := by
    cases hpm' : prioritizedModels provs with
    | nil => exact absurd hpm' hpm
    | cons c rest => exact ⟨c, rest, rfl⟩
  obtain ⟨r, hx, hs⟩ := hexec c step.input task.type
  have hwait := wait_no_limits rl hrl RLState.init c.provider (env.clock k) rfl
  have hatt := attemptCandidate_of_success env rl step.input task.type c (env.clock k)
    RLState.init r (by rw [hwait]) (hagent _ _) hx hs
  rw [hwait] at hatt
  refine ⟨r, ?_, hs⟩
  rw [executeStep_configured env roles rl step task k RLState.init provs hrole hne, hcr]
  exact runCandidates_cons_success env rl step.input task.type step.agent step.stepId k
    RLState.init c rest r RLState.init hatt

theorem executePlanSteps_cons_eq (env : StepEnv) (roles : Roles) (rl : RateLimits)
    (task : Task) (k : Nat) (st : RLState) (s : OrchestrationStep)
    (ss : List OrchestrationStep) :
    executePlanSteps env roles rl task k st (s :: ss) =
      (match executeStep env roles rl s task k st with
       | (.error e, k', st') => (.error e, k', st')
       | (.ok r, k', st') =>
           match executePlanSteps env roles rl task k' st' ss with
           | (.error e, k'', st'') => (.error e, k'', st'')
           | (.ok rs, k'', st'') => (.ok (r :: rs), k'', st'')) := rfl

theorem executePlanSteps_all_success (env : StepEnv) (roles : Roles) (rl : RateLimits)
    (task : Task)
    (hrl : ∀ p, rl p = none)
    (hagent : ∀ p m, env.hasAgent p m = true)
    (hexec : ∀ c inp tt, ∃ r, env.exec c inp tt = .responded r ∧ r.success = true)
    (steps : List OrchestrationStep) :
    ∀ k : Nat,
      (∀ s ∈ steps, ∃ provs, roles.lookup s.agent = some provs ∧ provs.isEmpty = false ∧
        prioritizedModels provs ≠ []) →
      ∃ rs k', executePlanSteps env roles rl task k RLState.init steps =
          (.ok rs, k', RLState.init) ∧ rs.length = steps.length := by
  induction steps with
  | nil => intro k _; exact ⟨[], k, rfl, rfl⟩
  | cons s ss ih =>
      intro k hsteps
      obtain ⟨r, hstep, _⟩ := executeStep_all_success env roles rl s task k hrl hagent hexec
        (hsteps s (List.mem_cons_self s ss))
      obtain ⟨rs, k', hrest, hlen⟩ := ih (k + 1)
        (fun s' hs' => hsteps s' (List.mem_cons_of_mem s hs'))
      refine ⟨r :: rs, k', ?_, by simp [hlen]⟩
      rw [executePlanSteps_cons_eq, hstep]
      simp only []
      rw [hrest]

/-- Claim C1, amended. The claim as stated fails on the code (see the
counterexample): `executePlan` does NOT append the summary step's response
to `results` — the summary response only contributes its text to the
`summary` field. What holds is: under the all-success mock environment the
returned `TaskResult` has one `AgentResponse` per plan step
(`results.length = plan.steps.length`), its `totalCost` is the sum of
`metadata.cost` over exactly those per-step responses (the summary's cost
is not included), and the task history gains the entry. -/
theorem C1_amended_results_per_plan_step (env : StepEnv) (roles : Roles) (rl : RateLimits)
    (plan : OrchestrationPlan) (task : Task) (k : Nat) (hist : List TaskHistoryEntry)
    (hrl : ∀ p, rl p = none)
    (hagent : ∀ p m, env.hasAgent p m = true)
    (hexec : ∀ c inp tt, ∃ r, env.exec c inp tt = .responded r ∧ r.success = true)
    (hsteps : ∀ s ∈ plan.steps, ∃ provs, roles.lookup s.agent = some provs ∧
      provs.isEmpty = false ∧ prioritizedModels provs ≠ [])
    (hsum : ∃ provs, roles.lookup (summaryRoleName roles) = some provs ∧
      provs.isEmpty = false ∧ prioritizedModels provs ≠ []) :
    ∃ tr k', executePlan env roles rl plan task k RLState.init hist =
        (.ok tr, k', RLState.init,
          hist ++ [{ task := task, result := tr, timestamp := env.clock k' }]) ∧
      tr.results.length = plan.steps.length ∧
      tr.totalCost = sumCosts tr.results := by
  obtain ⟨rs, k1, hruns, hlen⟩ :=
    executePlanSteps_all_success env roles rl task hrl hagent hexec plan.steps k hsteps
  obtain ⟨rsum, hsumstep, _⟩ := executeStep_all_success env roles rl
    { stepId := "final-summary", agent := summaryRoleName roles,
      action := "Generate task summary", input := summaryPrompt task rs,
      expectedOutput := "A concise summary of the task results." } task k1 hrl hagent hexec hsum
  refine ⟨{ results := rs, totalCost := sumCosts rs, totalTime := env.clock k1 - env.clock k, summary := rsum.result }, k1 + 1, ?_, ?_, rfl⟩
  · simp only [executePlan]
    rw [hruns]
    simp only [generateSummary]
    rw [hsumstep]
  · exact hlen

/-- Concrete inputs shared by the counterexample and the witnesses: a mock
environment in which every agent exists and succeeds, a role table with
"coder" and "director", no rate limits, and a one-step plan. -/
def cMeta : AgentMetadata := { tokensUsed := 1, cost := 0, duration := 1, model := "m1" }

def cResp : AgentResponse := { success := true, result := "ok", metadata := cMeta }

def cEnv : StepEnv :=
  { hasAgent := fun _ _ => true, exec := fun _ _ _ => .responded cResp, clock := fun _ => 0 }

def cProvider : ProviderEntry := { name := "mockA", models := ["m1"], priority := 1 }

def cRoles : Roles := [("coder", [cProvider]), ("director", [cProvider])]

def cRL : RateLimits := fun _ => none

def cTask : Task := { id := "t1", type := "code", description := "Create hello world" }

def cStep : OrchestrationStep :=
  { stepId := "1", agent := "coder", action := "Complete task",
    input := "Task: Create hello world", expectedOutput := "Task completion" }

def cPlan : OrchestrationPlan :=
  { taskId := "t1", steps := [cStep], estimatedCost := 0, estimatedTime := "30s",
    reasoning := "plan" }

/-- Counterexample to claim C1 as stated: in a run where every agent
invocation succeeds, the one-step plan yields a `TaskResult` whose
`results` has length 1 — not `steps.length + 1 = 2`. The summary response
is not an element of `results`. -/
theorem C1_counterexample_results_length :
    ((executePlan cEnv cRoles cRL cPlan cTask 0 RLState.init []).1.toOption.map
      (fun tr => tr.results.length)) = some cPlan.steps.length ∧
    some cPlan.steps.length ≠ some (cPlan.steps.length + 1) := by
  constructor
  · rfl
  · decide

theorem exhaustedMsg_contains (role stepId : String) :
    strContains (exhaustedMsg role stepId) role = true ∧
    strContains (exhaustedMsg role stepId) stepId = true := by
  constructor
  · have h : exhaustedMsg role stepId = "[Orchestrator] All models for role " ++
        (role ++ (" failed to execute step " ++ stepId)) := by
      unfold exhaustedMsg
      rw [strAppendAssoc, strAppendAssoc]
    rw [h]
    exact strContains_middle _ _ _
  · exact strContains_suffix _ _

theorem executePlanSteps_error_form (env : StepEnv) (roles : Roles) (rl : RateLimits)
    (task : Task) (steps : List OrchestrationStep) :
    ∀ (k : Nat) (st : RLState) (e : String) (k2 : Nat) (st2 : RLState),
      executePlanSteps env roles rl task k st steps = (.error e, k2, st2) →
      ∃ s ∈ steps, e = noModelsMsg s.agent ∨ e = exhaustedMsg s.agent s.stepId := by
  induction steps with
  | nil =>
      intro k st e k2 st2 h
      have h1 : (Except.ok [] : Except String (List AgentResponse)) = .error e :=
        congrArg Prod.fst h
      exact Except.noConfusion h1
  | cons s ss ih =>
      intro k st e k2 st2 h
      rw [executePlanSteps_cons_eq] at h
      rcases hx : executeStep env roles rl s task k st with ⟨ex, kx, stx⟩
      rw [hx] at h
      cases ex with
      | error e0 =>
          simp only [] at h
          have he : e0 = e := Except.error.inj (congrArg Prod.fst h)
          exact ⟨s, List.mem_cons_self s ss,
            he ▸ executeStep_error_forms env roles rl s task k st e0 kx stx hx⟩
      | ok r =>
          simp only [] at h
          rcases hy : executePlanSteps env roles rl task kx stx ss with ⟨ey, ky, sty⟩
          rw [hy] at h
          cases ey with
          | error e1 =>
              simp only [] at h
              have he : e1 = e := Except.error.inj (congrArg Prod.fst h)
              obtain ⟨s', hs', hf⟩ := ih kx stx e1 ky sty hy
              exact ⟨s', List.mem_cons_of_mem s hs', he ▸ hf⟩
          | ok rs =>
              simp only [] at h
              exact absurd (congrArg Prod.fst h) (by simp)

/-- Claim C9: plan execution is all-or-nothing. If `executePlan` fails —
at a plan step or at the summary step — it propagates an error (the typed
result carries no `TaskResult`, so no partial per-step results escape) and
the task history is returned unchanged; the failing error is the one
thrown by `executeStep` for some plan step (naming that step's role, and in
the exhausted case both its role and id) or for the summary step. A history
entry is appended exactly when every step and the summary succeed. -/
theorem C9_all_or_nothing (env : StepEnv) (roles : Roles) (rl : RateLimits)
    (plan : OrchestrationPlan) (task : Task) (k : Nat) (st : RLState)
    (hist : List TaskHistoryEntry) :
    (∀ (e : String) (k2 : Nat) (st2 : RLState) (h2 : List TaskHistoryEntry),
      executePlan env roles rl plan task k st hist = (.error e, k2, st2, h2) →
      h2 = hist ∧
        ((∃ s ∈ plan.steps, e = noModelsMsg s.agent ∨
            (e = exhaustedMsg s.agent s.stepId ∧ strContains e s.agent = true ∧
              strContains e s.stepId = true)) ∨
          (e = noModelsMsg (summaryRoleName roles) ∨
            (e = exhaustedMsg (summaryRoleName roles) "final-summary" ∧
              strContains e (summaryRoleName roles) = true ∧
              strContains e "final-summary" = true)))) ∧
    (∀ (tr : TaskResult) (k2 : Nat) (st2 : RLState) (h2 : List TaskHistoryEntry),
      executePlan env roles rl plan task k st hist = (.ok tr, k2, st2, h2) →
      h2 = hist ++ [{ task := task, result := tr, timestamp := env.clock k2 }]) := by
  constructor
  · intro e k2 st2 h2 h
    simp only [executePlan] at h
    rcases hx : executePlanSteps env roles rl task k st plan.steps with ⟨ex, kx, stx⟩
    rw [hx] at h
    cases ex with
    | error e0 =>
        simp only [Prod.mk.injEq] at h
        obtain ⟨he, _, _, hh⟩ := h
        have he' : e0 = e := Except.error.inj he
        refine ⟨hh.symm, Or.inl ?_⟩
        obtain ⟨s, hs, hf⟩ := executePlanSteps_error_form env roles rl task plan.steps
          k st e0 kx stx hx
        refine ⟨s, hs, ?_⟩
        cases hf with
        | inl hf0 => exact Or.inl (he' ▸ hf0)
        | inr hf0 =>
            refine Or.inr ⟨he' ▸ hf0, ?_, ?_⟩
            · rw [← he', hf0]
              exact (exhaustedMsg_contains s.agent s.stepId).1
            · rw [← he', hf0]
              exact (exhaustedMsg_contains s.agent s.stepId).2
    | ok rs =>
        simp only [] at h
        rcases hy : generateSummary env roles rl task rs kx stx with ⟨ey, ky, sty⟩
        rw [hy] at h
        cases ey with
        | error e1 =>
            simp only [Prod.mk.injEq] at h
            obtain ⟨he, _, _, hh⟩ := h
            have he' : e1 = e := Except.error.inj he
            refine ⟨hh.symm, Or.inr ?_⟩
            have hy' : executeStep env roles rl
                { stepId := "final-summary", agent := summaryRoleName roles,
                  action := "Generate task summary", input := summaryPrompt task rs,
                  expectedOutput := "A concise summary of the task results." } task kx stx =
                (.error e1, ky, sty) := by
              simpa only [generateSummary] using hy
            have hforms := executeStep_error_forms env roles rl _ task kx stx e1 ky sty hy'
            cases hforms with
            | inl hf0 => exact Or.inl (he' ▸ hf0)
            | inr hf0 =>
                refine Or.inr ⟨he' ▸ hf0, ?_, ?_⟩
                · rw [← he', hf0]
                  exact (exhaustedMsg_contains (summaryRoleName roles) "final-summary").1
                · rw [← he', hf0]
                  exact (exhaustedMsg_contains (summaryRoleName roles) "final-summary").2
        | ok rsum =>
            simp only [Prod.mk.injEq] at h
            exact absurd h.1 (by simp)
  · intro tr k2 st2 h2 h
    simp only [executePlan] at h
    rcases hx : executePlanSteps env roles rl task k st plan.steps with ⟨ex, kx, stx⟩
    rw [hx] at h
    cases ex with
    | error e0 =>
        simp only [Prod.mk.injEq] at h
        exact absurd h.1 (by simp)
    | ok rs =>
        simp only [] at h
        rcases hy : generateSummary env roles rl task rs kx stx with ⟨ey, ky, sty⟩
        rw [hy] at h
        cases ey with
        | error e1 =>
            simp only [Prod.mk.injEq] at h
            exact absurd h.1 (by simp)
        | ok rsum =>
            simp only [Prod.mk.injEq] at h
            obtain ⟨htr, hk, _, hh⟩ := h
            have htr' := Except.ok.inj htr
            rw [← hh, ← htr', ← hk]

/-! Concrete instantiations (witnesses) for the theorems with hypotheses. -/

theorem C1_amended_witness :
    ∃ tr k', executePlan cEnv cRoles cRL cPlan cTask 0 RLState.init [] =
        (.ok tr, k', RLState.init,
          [] ++ [{ task := cTask, result := tr, timestamp := cEnv.clock k' }]) ∧
      tr.results.length = cPlan.steps.length ∧
      tr.totalCost = sumCosts tr.results :=
  C1_amended_results_per_plan_step cEnv cRoles cRL cPlan cTask 0 []
    (fun _ => rfl) (fun _ _ => rfl) (fun _ _ _ => ⟨cResp, rfl, rfl⟩)
    (by intro s hs
        simp only [cPlan, List.mem_singleton] at hs
        subst hs
        exact ⟨[cProvider], rfl, rfl, by decide⟩)
    ⟨[cProvider], rfl, rfl, by decide⟩

def wOps : List RLOp := [.waitCall "openai" 5, .cool "openai" 7, .waitCall "groq" 8, .cool "groq" 9]

def wRL : RateLimits :=
  fun q => if q = "groq" then some { requestsPerMinute := 1, cooldownSeconds := 10 } else none

theorem C2_witness :
    wRL "openai" = none ∧
    (RateLimiter.wait wRL (applyOps wRL RLState.init wOps) "openai" 12).1 = true :=
  ⟨rfl, C2_unconfigured_always_allowed wRL "openai" rfl wOps 12⟩

def wRL3 : RateLimits :=
  fun q => if q = "api" then some { requestsPerMinute := 2, cooldownSeconds := 5 } else none

theorem C3_witness :
    (waitSeq wRL3 "api" RLState.init [100, 200]).1 = List.replicate 2 true ∧
    (RateLimiter.wait wRL3 (waitSeq wRL3 "api" RLState.init [100, 200]).2 "api" 300).1 = false ∧
    (RateLimiter.wait wRL3 (waitSeq wRL3 "api" RLState.init [100, 200]).2 "api"
      300).2.providerCooldownUntil "api" = some (300 + 5 * 1000) ∧
    (RateLimiter.wait wRL3
      (RateLimiter.wait wRL3 (waitSeq wRL3 "api" RLState.init [100, 200]).2 "api" 300).2
      "api" 4000).1 = false := by
  have h := C3_window_refusal_and_cooldown.2.2 wRL3 "api"
    { requestsPerMinute := 2, cooldownSeconds := 5 } [100, 200] 300 rfl rfl
    (by decide) (by decide) (by decide)
  exact ⟨h.1, h.2.1, h.2.2.1, h.2.2.2 4000 (by decide)⟩

def wProvA : ProviderEntry := { name := "a", models := ["a1", "a2"], priority := 2 }

def wProvB : ProviderEntry := { name := "b", models := ["b1"], priority := 1 }

theorem C4_witness :
    (sortByPriority [wProvA, wProvB]).Perm [wProvA, wProvB] ∧
    prioritizedModels [wProvA, wProvB] = [wProvB, wProvA].flatMap providerCandidates := by
  have h := C4_candidate_order [wProvA, wProvB]
  exact ⟨h.1, h.2.2.2 [wProvB, wProvA] (by decide) (by decide) (by decide)⟩

def wFailResp : AgentResponse := { success := false, result := "nope", metadata := cMeta }

def wEnv5 : StepEnv :=
  { hasAgent := fun _ _ => true,
    exec := fun c _ _ => if c.model = "m1" then .responded wFailResp else .responded cResp,
    clock := fun _ => 0 }

def wRoles5 : Roles := [("coder", [{ name := "mockA", models := ["m1", "m2", "m3"], priority := 1 }])]

theorem C5_witness :
    executeStep wEnv5 wRoles5 cRL cStep cTask 0 RLState.init = (.ok cResp, 2, RLState.init) :=
  C5_first_success_wins wEnv5 wRoles5 cRL cStep cTask 0 RLState.init
    [{ name := "mockA", models := ["m1", "m2", "m3"], priority := 1 }]
    [{ model := "m1", provider := "mockA" }] [{ model := "m3", provider := "mockA" }]
    { model := "m2", provider := "mockA" } cResp rfl rfl (by decide) (by decide) (by decide)
    rfl rfl rfl

def wRolesEmpty : Roles := [("director", [cProvider])]

def wEnvFail : StepEnv :=
  { hasAgent := fun _ _ => true, exec := fun _ _ _ => .responded wFailResp, clock := fun _ => 0 }

theorem C6_witness :
    executeStep cEnv wRolesEmpty cRL cStep cTask 0 RLState.init =
      (.error (noModelsMsg "coder"), 0, RLState.init) ∧
    (executeStep wEnvFail cRoles cRL cStep cTask 0 RLState.init).1 =
      .error (exhaustedMsg "coder" "1") ∧
    strContains (exhaustedMsg "coder" "1") "coder" = true ∧
    strContains (exhaustedMsg "coder" "1") "1" = true := by
  refine ⟨?_, ?_, (C6_error_iff_all_fail.2.2 "coder" "1").1,
    (C6_error_iff_all_fail.2.2 "coder" "1").2⟩
  · exact C6_error_iff_all_fail.1 cEnv wRolesEmpty cRL cStep cTask 0 RLState.init (Or.inl rfl)
  · exact ((C6_error_iff_all_fail.2.1 wEnvFail cRoles cRL cStep cTask 0 RLState.init
      [cProvider] rfl rfl).1 (exhaustedMsg "coder" "1")).mpr ⟨by decide, rfl⟩

def wPrimsFail : ParsePrims :=
  { codeBlockMatch := fun _ => none, simpleMatch := fun _ => none, jsonParse := fun _ => none }

theorem C7_witness :
    parsePlan wPrimsFail "no structured data here, just prose" cTask = fallbackPlan cTask :=
  (C7_parsePlan_fallback wPrimsFail "no structured data here, just prose" cTask (by decide)).1

def wStepJs : Js := .obj [("stepId", .str "1"), ("agent", .str "coder")]

def wPrims8 : ParsePrims :=
  { codeBlockMatch := fun _ => some "J",
    simpleMatch := fun _ => none,
    jsonParse := fun s => if s = "J" then some (.obj [("steps", .arr [wStepJs])]) else none }

theorem C8_witness :
    (parsePlan wPrims8 "fenced input" cTask).steps = [wStepJs] ∧
    (parsePlan wPrims8 "fenced input" cTask).taskId = "t1" :=
  C8_parsePlan_fenced wPrims8 "fenced input" cTask "J" (.obj [("steps", .arr [wStepJs])])
    [wStepJs] rfl (by decide) rfl rfl (by simp)

def wSeed : TaskHistoryEntry :=
  { task := cTask,
    result := { results := [], totalCost := 0, totalTime := 0, summary := "s" },
    timestamp := 0 }

theorem C9_witness :
    executePlan cEnv wRolesEmpty cRL cPlan cTask 0 RLState.init [wSeed] =
      (.error (noModelsMsg "coder"), 0, RLState.init, [wSeed]) ∧
    (executePlan cEnv wRolesEmpty cRL cPlan cTask 0 RLState.init [wSeed]).2.2.2 = [wSeed] := by
  refine ⟨rfl, ?_⟩
  have h := (C9_all_or_nothing cEnv wRolesEmpty cRL cPlan cTask 0 RLState.init [wSeed]).1
    (noModelsMsg "coder") 0 RLState.init [wSeed] rfl
  exact h.1

theorem C10_witness :
    cResp.success = true ∧
    (createPlan wPrimsFail cEnv cRoles cRL cTask 0 RLState.init).1 ≠ .error planFailedMsg := by
  constructor
  · exact C10_returned_response_always_success.1 cEnv cRoles cRL cStep cTask 0 RLState.init
      cResp rfl
  · exact C10_returned_response_always_success.2 wPrimsFail cEnv cRoles cRL cTask 0 RLState.init

end Brady
